import Mathlib

/-!
Verification of the AI-Company-Secretary application (src/app.py).

Strings are modelled as `List Char` (Python `str` indexes code points, so a
character list is a faithful model of slicing, splitting and concatenation).
Python's `str.split(sep)`, `str.replace(pat, repl)` and `str.strip()` are
modelled by `pySplit`, `pyReplace` and `pyStrip` below; the first two use a
fuel parameter so that they are structurally recursive and evaluate inside
the kernel, with `pySplit_none` / `pySplit_some` recovering the natural
recursion equations.
-/

/-- Python `str.strip()` whitespace test, restricted to the ASCII whitespace
characters (Python also strips other Unicode spaces; every text considered
in this development is ASCII). -/
def pyIsSpace (c : Char) : Bool :=
  c == ' ' || c == '\t' || c == '\n' || c == '\r' || c == '\x0b' || c == '\x0c'

/-- Python `str.strip()`: drop whitespace from both ends. -/
def pyStrip (s : List Char) : List Char :=
  ((s.dropWhile pyIsSpace).reverse.dropWhile pyIsSpace).reverse

/-- Index of the first (leftmost) occurrence of `sep` in `s`, if any. -/
def firstOccIdx? (sep : List Char) : List Char → Option Nat
  | [] => if sep.isPrefixOf ([] : List Char) then some 0 else none
  | c :: rest =>
      if sep.isPrefixOf (c :: rest) then some 0
      else (firstOccIdx? sep rest).map (· + 1)

/-- Fuelled version of Python `str.split(sep)` (leftmost, non-overlapping). -/
def splitFuel (sep : List Char) : Nat → List Char → List (List Char)
  | 0, s => [s]
  | fuel + 1, s =>
      match firstOccIdx? sep s with
      | none => [s]
      | some i => s.take i :: splitFuel sep fuel (s.drop (i + sep.length))

/-- Python `str.split(sep)` for a non-empty separator: `s.length + 1` units of
fuel always suffice because every recursive step consumes at least one
character. -/
def pySplit (sep s : List Char) : List (List Char) :=
  splitFuel sep (s.length + 1) s

/-- Fuelled version of Python `str.replace(pat, repl)` (leftmost,
non-overlapping). -/
def replaceFuel (pat repl : List Char) : Nat → List Char → List Char
  | 0, s => s
  | fuel + 1, s =>
      match firstOccIdx? pat s with
      | none => s
      | some i => s.take i ++ repl ++ replaceFuel pat repl fuel (s.drop (i + pat.length))

/-- Python `str.replace(pat, repl)` for a non-empty pattern. -/
def pyReplace (pat repl s : List Char) : List Char :=
  replaceFuel pat repl (s.length + 1) s

theorem isPrefixOf_length_le :
    ∀ (p l : List Char), p.isPrefixOf l = true → p.length ≤ l.length
  | [], _, _ => by simp
  | _ :: _, [], h => by simp [List.isPrefixOf] at h
  | a :: p, b :: l, h => by
      simp only [List.isPrefixOf, Bool.and_eq_true] at h
      have := isPrefixOf_length_le p l h.2
      simp only [List.length_cons]
      omega

theorem isPrefixOf_eq_append :
    ∀ (p l : List Char), p.isPrefixOf l = true → l = p ++ l.drop p.length
  | [], l, _ => by simp
  | _ :: _, [], h => by simp [List.isPrefixOf] at h
  | a :: p, b :: l, h => by
      simp only [List.isPrefixOf, Bool.and_eq_true, beq_iff_eq] at h
      obtain ⟨h1, h2⟩ := h
      subst h1
      simpa using isPrefixOf_eq_append p l h2

theorem firstOccIdx_isPrefixOf (sep : List Char) :
    ∀ (s : List Char) (i : Nat), firstOccIdx? sep s = some i →
      sep.isPrefixOf (s.drop i) = true := by
  intro s
  induction s with
  | nil =>
      intro i h
      simp only [firstOccIdx?] at h
      split at h
      · next hp => cases h; exact hp
      · cases h
  | cons c rest ih =>
      intro i h
      simp only [firstOccIdx?] at h
      split at h
      · next hp => cases h; exact hp
      · next hp =>
          cases hrec : firstOccIdx? sep rest with
          | none => rw [hrec] at h; cases h
          | some j =>
              rw [hrec] at h
              simp only [Option.map_some', Option.some.injEq] at h
              subst h
              simpa using ih j hrec

theorem firstOccIdx_le (sep : List Char) :
    ∀ (s : List Char) (i : Nat), firstOccIdx? sep s = some i → i ≤ s.length := by
  intro s
  induction s with
  | nil =>
      intro i h
      simp only [firstOccIdx?] at h
      split at h
      · cases h; exact Nat.zero_le _
      · cases h
  | cons c rest ih =>
      intro i h
      simp only [firstOccIdx?] at h
      split at h
      · cases h; exact Nat.zero_le _
      · cases hrec : firstOccIdx? sep rest with
        | none => rw [hrec] at h; cases h
        | some j =>
            rw [hrec] at h
            simp only [Option.map_some', Option.some.injEq] at h
            subst h
            have := ih j hrec
            simp only [List.length_cons]
            omega

theorem firstOccIdx_add_le (sep : List Char) (s : List Char) (i : Nat)
    (h : firstOccIdx? sep s = some i) : i + sep.length ≤ s.length := by
  have hpre := firstOccIdx_isPrefixOf sep s i h
  have hlen := isPrefixOf_length_le sep (s.drop i) hpre
  have hi := firstOccIdx_le sep s i h
  simp only [List.length_drop] at hlen
  omega

theorem splitFuel_succ (sep : List Char) (fuel : Nat) (s : List Char) :
    splitFuel sep (fuel + 1) s =
      match firstOccIdx? sep s with
      | none => [s]
      | some i => s.take i :: splitFuel sep fuel (s.drop (i + sep.length)) := rfl

theorem splitFuel_congr (sep : List Char) (hsep : sep ≠ []) :
    ∀ (f₁ : Nat) (s : List Char) (f₂ : Nat), s.length < f₁ → s.length < f₂ →
      splitFuel sep f₁ s = splitFuel sep f₂ s := by
  intro f₁
  induction f₁ with
  | zero => intro s f₂ h1 _; omega
  | succ n ih =>
      intro s f₂ h1 h2
      cases f₂ with
      | zero => omega
      | succ m =>
          rw [splitFuel_succ sep n s, splitFuel_succ sep m s]
          cases h : firstOccIdx? sep s with
          | none => rfl
          | some i =>
              dsimp only
              have hle := firstOccIdx_add_le sep s i h
              have hslen : 1 ≤ sep.length := by
                cases sep with
                | nil => exact absurd rfl hsep
                | cons _ _ => simp
              rw [ih (s.drop (i + sep.length)) m
                (by simp only [List.length_drop]; omega)
                (by simp only [List.length_drop]; omega)]

theorem pySplit_none (sep : List Char) (s : List Char)
    (h : firstOccIdx? sep s = none) : pySplit sep s = [s] := by
  unfold pySplit
  simp only [splitFuel, h]

theorem pySplit_some (sep : List Char) (hsep : sep ≠ []) (s : List Char) (i : Nat)
    (h : firstOccIdx? sep s = some i) :
    pySplit sep s = s.take i :: pySplit sep (s.drop (i + sep.length)) := by
  have hle := firstOccIdx_add_le sep s i h
  have hslen : 1 ≤ sep.length := by
    cases sep with
    | nil => exact absurd rfl hsep
    | cons _ _ => simp
  unfold pySplit
  rw [splitFuel_succ sep s.length s, h]
  dsimp only
  congr 1
  apply splitFuel_congr sep hsep
  · simp only [List.length_drop]; omega
  · simp only [List.length_drop]; omega

theorem firstOccIdx_single_cons_eq (c : Char) (s : List Char) :
    firstOccIdx? [c] (c :: s) = some 0 := by
  simp [firstOccIdx?, List.isPrefixOf]

theorem firstOccIdx_single_cons_ne (a c : Char) (h : a ≠ c) (s : List Char) :
    firstOccIdx? [c] (a :: s) = (firstOccIdx? [c] s).map (· + 1) := by
  have hpre : ([c].isPrefixOf (a :: s)) = false := by
    simp [List.isPrefixOf, Ne.symm h]
  simp [firstOccIdx?, hpre]

theorem pySplit_single_nil (c : Char) : pySplit [c] [] = [[]] := rfl

theorem pySplit_single_cons_eq (c : Char) (s : List Char) :
    pySplit [c] (c :: s) = [] :: pySplit [c] s := by
  rw [pySplit_some [c] (by simp) _ 0 (firstOccIdx_single_cons_eq c s)]
  simp

theorem pySplit_single_cons_ne (a c : Char) (h : a ≠ c) (s : List Char) :
    pySplit [c] (a :: s) = (a :: (pySplit [c] s).headD []) :: (pySplit [c] s).tail := by
  cases hocc : firstOccIdx? [c] s with
  | none =>
      have h1 : firstOccIdx? [c] (a :: s) = none := by
        rw [firstOccIdx_single_cons_ne a c h s, hocc]; rfl
      rw [pySplit_none [c] _ h1, pySplit_none [c] _ hocc]
      rfl
  | some i =>
      have h1 : firstOccIdx? [c] (a :: s) = some (i + 1) := by
        rw [firstOccIdx_single_cons_ne a c h s, hocc]; rfl
      rw [pySplit_some [c] (by simp) _ _ h1, pySplit_some [c] (by simp) _ _ hocc]
      simp

/-- Line splitting as the specification phrases it ("split into lines"),
written by direct recursion on the text; provably equal to `pySplit ['\n']`. -/
def linesSpec : List Char → List (List Char)
  | [] => [[]]
  | c :: rest =>
      if c = '\n' then [] :: linesSpec rest
      else
        match linesSpec rest with
        | [] => [[c]]
        | l :: ls => (c :: l) :: ls

theorem linesSpec_ne_nil : ∀ (s : List Char), linesSpec s ≠ [] := by
  intro s
  cases s with
  | nil => simp [linesSpec]
  | cons c rest =>
      simp only [linesSpec]
      split
      · simp
      · split
        · simp
        · simp

theorem pySplit_nl_eq_linesSpec : ∀ (s : List Char), pySplit ['\n'] s = linesSpec s := by
  intro s
  induction s with
  | nil => rfl
  | cons c rest ih =>
      by_cases hc : c = '\n'
      · subst hc
        rw [pySplit_single_cons_eq, ih]
        simp [linesSpec]
      · rw [pySplit_single_cons_ne c '\n' hc rest, ih]
        cases hl : linesSpec rest with
        | nil => exact absurd hl (linesSpec_ne_nil rest)
        | cons l ls => simp [linesSpec, hc, hl]

/-!
Transcription of src/app.py.
-/

/-- The header token on which the checklist button handler splits the model
reply (src/app.py line 171: `result.split("Month/Trigger")`). -/
def headerToken : List Char := "Month/Trigger".toList

/-- Code-fence token removed first (src/app.py lines 59 and 175). -/
def fenceCsvToken : List Char := "```csv".toList

/-- Code-fence token removed second (src/app.py lines 59 and 175). -/
def fenceToken : List Char := "```".toList

/-- The fence-stripping step `text.replace("```csv", "").replace("```", "")`
(src/app.py lines 59 and 175). -/
def stripFences (text : List Char) : List Char :=
  pyReplace fenceToken [] (pyReplace fenceCsvToken [] text)

/-- `clean_csv_output` (src/app.py lines 55-63): strip fences, strip
whitespace at both ends, split on newlines, keep the lines containing a
comma, and rejoin them with newlines. -/
def clean_csv_output (text : List Char) : List Char :=
  let t := pyStrip (stripFences text)
  let lines := pySplit ['\n'] t
  let clean_lines := lines.filter (fun line => line.contains ',')
  List.intercalate ['\n'] clean_lines

/-- `parts = result.split("Month/Trigger")` (src/app.py line 171). -/
def recoverParts (result : List Char) : List (List Char) :=
  pySplit headerToken result

/-- The summary segment displayed by the handler:
`parts[0].replace("```csv", "").replace("```", "")` (src/app.py line 175). -/
def recoverSummary (result : List Char) : List Char :=
  stripFences ((recoverParts result).headD [])

/-- The candidate table segment: `"Month/Trigger" + parts[1]` when
`len(parts) > 1`, and no segment otherwise (src/app.py lines 178-179). -/
def recoverTable? (result : List Char) : Option (List Char) :=
  match recoverParts result with
  | _ :: p1 :: _ => some (headerToken ++ p1)
  | _ => none

/-- The character budget applied to the knowledge base inside the checklist
prompt: `full_knowledge_base[:60000]` (src/app.py line 85). -/
def KNOWLEDGE_BUDGET : Nat := 60000

/-- `full_knowledge_base = base_text + "\n\n" + extra_text`
(src/app.py line 74). -/
def full_knowledge_base (base_text extra_text : List Char) : List Char :=
  base_text ++ "\n\n".toList ++ extra_text

/-- The knowledge context actually embedded in the checklist prompt:
`full_knowledge_base[:60000]` (src/app.py line 85). -/
def knowledgeContext (base_text extra_text : List Char) : List Char :=
  (full_knowledge_base base_text extra_text).take KNOWLEDGE_BUDGET

/-- Literal text of the checklist prompt before the first
`{company_type}` interpolation (src/app.py lines 76-81). -/
def promptSeg1 : List Char :=
  ("\n    ### ROLE\n    You are an expert Company Secretary (CS) in India, specializing in the Companies Act, 2013 and SEBI Regulations.\n    \n    ### USER CONTEXT\n    The user represents a **").toList

/-- Literal text between the first `{company_type}` and the embedded
knowledge context (src/app.py lines 81-85). -/
def promptSeg2 : List Char :=
  ("** Company.\n    \n    ### SOURCE OF TRUTH (CONTEXT)\n    Use the following text (Companies Act/Rules) as your strict knowledge base:\n    ").toList

/-- Literal text between the embedded knowledge context and the second
`{company_type}` (src/app.py lines 85-88). -/
def promptSeg3 : List Char :=
  (" \n    \n    ### TASK\n    Generate a **Yearly Compliance Checklist** specifically for a **").toList

/-- Literal tail of the checklist prompt (src/app.py lines 88-105). -/
def promptSeg4 : List Char :=
  ("** Company.\n    \n    ### STRICT LOGIC (TRIAGE)\n    1. **If Private Limited:** - Check for exemptions (e.g., Section 185 loan exemptions, Section 173 meeting notice).\n       - Exclude strict public company filings like MGT-14 for certain resolutions.\n    2. **If Public (Unlisted):** - Apply strict Companies Act rules (KMP appointment Sec 203, Secretarial Audit Sec 204 if applicable).\n    3. **If Listed:** - Apply Companies Act + MENTION SEBI LODR requirements (Quarterly Results, Shareholding Pattern, Intimations).\n    \n    ### OUTPUT FORMAT\n    1. **Executive Summary**: A brief, professional strategy note (bullet points) on the compliance burden for this year.\n    2. **The Checklist Table (CSV Only)**:\n       - Strictly output a CSV format block.\n       - Headers: \"Month/Trigger\",\"Form/Activity\",\"Section/Rule\",\"Frequency\",\"Penalty Risk\"\n       - Do NOT add markdown tables, only CSV text.\n    \n    Example CSV row:\n    \"September 30\",\"File AOC-4 (Financials)\",\"Section 137\",\"Yearly\",\"High\"\n    ").toList

/-- The checklist prompt f-string (src/app.py lines 76-105). -/
def checklistPrompt (company_type base_text extra_text : List Char) : List Char :=
  promptSeg1 ++ company_type ++ promptSeg2 ++ knowledgeContext base_text extra_text
    ++ promptSeg3 ++ company_type ++ promptSeg4

/-- A handle returned by `genai.GenerativeModel(name)`; it records the model
identifier it was constructed with. -/
structure GenerativeModel where
  name : List Char
  deriving DecidableEq

/-- Environment model of the `google.generativeai` library: each call either
returns normally (`Except.ok`) or raises a Python exception carrying a
message (`Except.error`). -/
structure GenAI where
  configureResult : List Char → Except (List Char) Unit
  modelCtor : List Char → Except (List Char) GenerativeModel
  generateContent : GenerativeModel → List Char → Except (List Char) (List Char)

/-- The hardcoded model identifier (src/app.py line 71). -/
def geminiModelName : List Char := "gemini-1.5-flash".toList

/-- Prefix of the error string returned when the generation call raises
(src/app.py line 111). -/
def geminiErrorPrefix : List Char := "Error calling Gemini: ".toList

/-- `generate_compliance_checklist` (src/app.py lines 65-111).
`genai.configure` (line 69) and the `genai.GenerativeModel` construction
(line 71) sit outside the `try` block, so an exception raised by either
propagates (`Except.error`); only `model.generate_content(prompt)`
(lines 107-111) is guarded, its exception being converted to the string
`"Error calling Gemini: {e}"` returned as a normal reply. -/
def generate_compliance_checklist (g : GenAI)
    (company_type base_text extra_text api_key : List Char) :
    Except (List Char) (List Char) :=
  match g.configureResult api_key with
  | .error e => .error e
  | .ok _ =>
    match g.modelCtor geminiModelName with
    | .error e => .error e
    | .ok model =>
      match g.generateContent model (checklistPrompt company_type base_text extra_text) with
      | .ok r => .ok r
      | .error e => .ok (geminiErrorPrefix ++ e)

/-- Literal text of the query prompt before the `{company_type}`
interpolation (src/app.py lines 213-214). -/
def qSeg1 : List Char :=
  ("\n        Act as a strict Company Secretary for a **").toList

/-- Literal text between `{company_type}` and the base-text slice
(src/app.py lines 214-216). -/
def qSeg2 : List Char :=
  ("** company.\n        Using the Companies Act 2013 (provided below) as your authority:\n        ").toList

/-- Literal text between the base-text slice and the supplemental-text slice
(src/app.py lines 216-217). -/
def qSeg3 : List Char := ("\n        ").toList

/-- Literal text between the supplemental-text slice and `{user_query}`
(src/app.py lines 217-219). -/
def qSeg4 : List Char := ("\n        \n        Question: \"").toList

/-- Literal text between `{user_query}` and the second `{company_type}`
(src/app.py lines 219-223). -/
def qSeg5 : List Char :=
  ("\"\n        \n        Answer Requirement:\n        1. Cite the specific **Section** or **Rule**.\n        2. If ").toList

/-- Literal tail of the query prompt (src/app.py lines 223-225). -/
def qSeg6 : List Char :=
  (" is Private, mention specific exemptions if applicable.\n        3. Be concise and professional.\n        ").toList

/-- The query prompt f-string (src/app.py lines 213-225): the base text and
the supplemental text are truncated separately, to 50000 and 10000
characters respectively. -/
def q_prompt (company_type base_rules_text extra_context user_query : List Char) : List Char :=
  qSeg1 ++ company_type ++ qSeg2 ++ base_rules_text.take 50000
    ++ qSeg3 ++ extra_context.take 10000
    ++ qSeg4 ++ user_query ++ qSeg5 ++ company_type ++ qSeg6

/-- Environment model of one uploaded file as seen through PyPDF2
(src/app.py lines 46-50): constructing `PdfReader` may raise, and each
page's `extract_text()` may raise. -/
structure UploadedFile where
  name : List Char
  readerResult : Except (List Char) (List (Except (List Char) (List Char)))

/-- The page loop of `extract_text_from_uploaded_pdfs` (src/app.py
lines 49-50): append `page.extract_text() + "\n"` page by page; the first
page whose extraction raises aborts the loop, the text appended by the
earlier iterations being kept. Returns the appended text and the exception
message, if any. -/
def extractPagesLoop : List (Except (List Char) (List Char)) → List Char × Option (List Char)
  | [] => ([], none)
  | .error e :: _ => ([], some e)
  | .ok t :: rest =>
      let r := extractPagesLoop rest
      (t ++ '\n' :: r.1, r.2)

/-- Warning emitted for a failing file: `f"Error reading {pdf_file.name}: {e}"`
(src/app.py line 52). -/
def readErrorMsg (name e : List Char) : List Char :=
  "Error reading ".toList ++ name ++ ": ".toList ++ e

/-- `extract_text_from_uploaded_pdfs` (src/app.py lines 41-53): one shared
accumulator `combined_text` across all files; each file's work is wrapped in
`try/except`, a failure producing an `st.error` warning and moving on to the
next file. Returns the accumulated text and the list of warnings. -/
def extract_text_from_uploaded_pdfs (uploaded_files : List UploadedFile) :
    List Char × List (List Char) :=
  uploaded_files.foldl
    (fun acc f =>
      match f.readerResult with
      | .error e => (acc.1, acc.2 ++ [readErrorMsg f.name e])
      | .ok pages =>
          let r := extractPagesLoop pages
          match r.2 with
          | none => (acc.1 ++ r.1, acc.2)
          | some e => (acc.1 ++ r.1, acc.2 ++ [readErrorMsg f.name e]))
    ([], [])

/-!
Tabular materializer. The source delegates this to pandas
(`pd.read_csv` on line 184 and `df.to_csv(index=False)` on line 188 of
src/app.py), an external library, so the delimited-text parser and
serializer are modelled from the specification.
-/

/-- Modelled from the spec: a ComplianceRow (§3) — "five fixed string
fields: trigger/period, activity/form, legal reference, frequency, risk
level". The source keeps rows inside a pandas DataFrame. -/
structure ComplianceRow where
  monthTrigger : List Char
  formActivity : List Char
  sectionRule : List Char
  frequency : List Char
  penaltyRisk : List Char
  deriving DecidableEq

/-- Modelled from the spec: a ComplianceTable (§3) — a fixed 5-column header
row plus an ordered sequence of ComplianceRow. The source keeps the table
inside a pandas DataFrame. -/
structure ComplianceTable where
  header : ComplianceRow
  rows : List ComplianceRow
  deriving DecidableEq

/-- Build a row from a parsed 5-field record. -/
def rowOfFields (l : List (List Char)) : ComplianceRow :=
  ⟨l.getD 0 [], l.getD 1 [], l.getD 2 [], l.getD 3 [], l.getD 4 []⟩

/-- The five fields of a row, in column order. -/
def fieldsOfRow (r : ComplianceRow) : List (List Char) :=
  [r.monthTrigger, r.formActivity, r.sectionRule, r.frequency, r.penaltyRisk]

/-- Modelled from the spec: the comma-delimited record scanner of the
materializer (§4.7) — comma as field separator, newline as record
separator, with the double-quote convention the delimited-text parser
provides natively (a field starting with `"` runs to the matching close
quote, a doubled `""` inside it denoting one literal quote). State:
in-quote flag, input, current field (reversed), completed fields of the
current record (reversed). -/
def csvAux : Bool → List Char → List Char → List (List Char) → List (List (List Char))
  | false, [], f, r => [(f.reverse :: r).reverse]
  | true, [], f, r => [(f.reverse :: r).reverse]
  | false, c :: rest, f, r =>
      if c = '\n' then
        (f.reverse :: r).reverse ::
          (match rest with
           | [] => []
           | _ :: _ => csvAux false rest [] [])
      else if c = ',' then csvAux false rest [] (f.reverse :: r)
      else if c = '"' ∧ f = [] then csvAux true rest f r
      else csvAux false rest (c :: f) r
  | true, '"' :: '"' :: rest, f, r => csvAux true rest ('"' :: f) r
  | true, '"' :: rest, f, r => csvAux false rest f r
  | true, c :: rest, f, r => csvAux true rest (c :: f) r

/-- Records of a delimited text: empty input has no records; a trailing
newline does not open an empty final record. -/
def csvParse : List Char → List (List (List Char))
  | [] => []
  | c :: rest => csvAux false (c :: rest) [] []

/-- Modelled from the spec: `materialize(tableText) -> Table | ParseFailure`
(§4.7) — header row plus data rows, exactly 5 columns each, order
preserved; `none` is the ParseFailure outcome. -/
def materialize (tableText : List Char) : Option ComplianceTable :=
  match csvParse tableText with
  | [] => none
  | header :: dataRows =>
      if header.length = 5 ∧ ∀ row ∈ dataRows, row.length = 5 then
        some ⟨rowOfFields header, dataRows.map rowOfFields⟩
      else none

/-- Modelled from the spec: minimal quoting used by the CSV download
serializer (§6, §4.7) — a field is quoted exactly when it contains the
separator, a quote, or a line break. -/
def needsQuote (f : List Char) : Bool :=
  decide (',' ∈ f ∨ '"' ∈ f ∨ '\n' ∈ f ∨ '\r' ∈ f)

/-- Double every quote inside a quoted field. -/
def escapeQuotes : List Char → List Char
  | [] => []
  | c :: rest =>
      if c = '"' then '"' :: '"' :: escapeQuotes rest
      else c :: escapeQuotes rest

/-- Serialize one field, quoting it if needed. -/
def writeField (f : List Char) : List Char :=
  if needsQuote f then '"' :: (escapeQuotes f ++ ['"']) else f

/-- Serialize the fields of one record, comma-separated. -/
def joinFields : List (List Char) → List Char
  | [] => []
  | [f] => writeField f
  | f :: g :: t => writeField f ++ ',' :: joinFields (g :: t)

/-- Serialize one record, newline-terminated. -/
def writeRecord (fields : List (List Char)) : List Char :=
  joinFields fields ++ ['\n']

/-- Modelled from the spec: `serialize` — the byte-serialized download form
of a table (§4.7, §6): header row then one comma-separated line per row. -/
def serialize (t : ComplianceTable) : List Char :=
  ((fieldsOfRow t.header :: t.rows.map fieldsOfRow).map writeRecord).flatten

/-!
Specification-side formulations used by the refinement claims.
-/

/-- The cleaning step as claim C8 words it (fence removal, then split into
lines, keep the comma-bearing lines, rejoin): stated without the
whitespace-stripping step. -/
def cleanClaimC8 (text : List Char) : List Char :=
  List.intercalate ['\n']
    ((linesSpec (stripFences text)).filter (fun line => line.contains ','))

/-- The cleaning step as claim C8 amended: fence removal, then stripping of
leading and trailing whitespace, then line split / comma filter / rejoin. -/
def cleanClaimC8Amended (text : List Char) : List Char :=
  List.intercalate ['\n']
    ((linesSpec (pyStrip (stripFences text))).filter (fun line => line.contains ','))

/-- The page texts of a file that precede its first failing page. -/
def pagesBeforeFailure : List (Except (List Char) (List Char)) → List (List Char)
  | [] => []
  | .ok t :: rest => t :: pagesBeforeFailure rest
  | .error _ :: _ => []

/-- The first page-extraction exception of a file, if any. -/
def firstPageError? : List (Except (List Char) (List Char)) → Option (List Char)
  | [] => none
  | .ok _ :: rest => firstPageError? rest
  | .error e :: _ => some e

/-- The text a single file contributes to the batch extraction: nothing if
its reader fails outright, otherwise the newline-terminated texts of the
pages preceding its first failure. -/
def fileContribution (f : UploadedFile) : List Char :=
  match f.readerResult with
  | .error _ => []
  | .ok pages => ((pagesBeforeFailure pages).map (fun t => t ++ ['\n'])).flatten

/-- The warning a single file contributes, if it fails. -/
def fileWarning? (f : UploadedFile) : Option (List Char) :=
  match f.readerResult with
  | .error e => some (readErrorMsg f.name e)
  | .ok pages => (firstPageError? pages).map (readErrorMsg f.name)

/-!
Round-trip lemmas for the materializer.
-/

theorem csvAux_escape :
    ∀ (f acc : List Char) (r : List (List Char)) (rest : List Char),
      rest.head? ≠ some '"' →
      csvAux true (escapeQuotes f ++ '"' :: rest) acc r
        = csvAux false rest (f.reverse ++ acc) r := by
  intro f
  induction f with
  | nil =>
      intro acc r rest hrest
      simp only [escapeQuotes, List.nil_append, List.reverse_nil]
      cases rest with
      | nil => rfl
      | cons c t =>
          have hc : c ≠ '"' := by intro h; subst h; exact hrest rfl
          simp [csvAux, hc]
  | cons a f ih =>
      intro acc r rest hrest
      by_cases ha : a = '"'
      · subst ha
        rw [show escapeQuotes ('"' :: f) = '"' :: '"' :: escapeQuotes f by
          simp [escapeQuotes]]
        simp only [List.cons_append]
        rw [show csvAux true ('"' :: '"' :: (escapeQuotes f ++ '"' :: rest)) acc r
            = csvAux true (escapeQuotes f ++ '"' :: rest) ('"' :: acc) r from rfl]
        rw [ih ('"' :: acc) r rest hrest]
        simp
      · rw [show escapeQuotes (a :: f) = a :: escapeQuotes f by
          simp [escapeQuotes, ha]]
        simp only [List.cons_append]
        rw [show csvAux true (a :: (escapeQuotes f ++ '"' :: rest)) acc r
            = csvAux true (escapeQuotes f ++ '"' :: rest) (a :: acc) r by simp [csvAux, ha]]
        rw [ih (a :: acc) r rest hrest]
        simp

theorem csvAux_unquoted :
    ∀ (f : List Char), (∀ c ∈ f, c ≠ ',' ∧ c ≠ '\n' ∧ c ≠ '"') →
      ∀ (acc : List Char) (r : List (List Char)) (rest : List Char),
        csvAux false (f ++ rest) acc r = csvAux false rest (f.reverse ++ acc) r := by
  intro f
  induction f with
  | nil => intro _ acc r rest; simp
  | cons a f ih =>
      intro hf acc r rest
      obtain ⟨ha, hf2⟩ := List.forall_mem_cons.mp hf
      simp only [List.cons_append]
      rw [show csvAux false (a :: (f ++ rest)) acc r
          = csvAux false (f ++ rest) (a :: acc) r by
        simp [csvAux, ha.1, ha.2.1, ha.2.2]]
      rw [ih hf2 (a :: acc) r rest]
      simp

theorem csvAux_writeField (f : List Char) (r : List (List Char)) (rest : List Char)
    (hrest : rest.head? = some ',' ∨ rest.head? = some '\n') :
    csvAux false (writeField f ++ rest) [] r = csvAux false rest f.reverse r := by
  have hrq : rest.head? ≠ some '"' := by
    cases hrest with
    | inl h => rw [h]; intro hq; cases hq
    | inr h => rw [h]; intro hq; cases hq
  by_cases hq : needsQuote f = true
  · simp only [writeField, if_pos hq, List.cons_append, List.append_assoc,
      List.singleton_append, List.nil_append]
    rw [show csvAux false ('"' :: (escapeQuotes f ++ '"' :: rest)) [] r
        = csvAux true (escapeQuotes f ++ '"' :: rest) [] r by simp [csvAux]]
    rw [csvAux_escape f [] r rest hrq]
    simp
  · have hq2 : ¬(',' ∈ f ∨ '"' ∈ f ∨ '\n' ∈ f ∨ '\r' ∈ f) := by
      simpa [needsQuote] using hq
    push_neg at hq2
    have hf : ∀ c ∈ f, c ≠ ',' ∧ c ≠ '\n' ∧ c ≠ '"' := by
      intro c hc
      refine ⟨fun h => ?_, fun h => ?_, fun h => ?_⟩ <;> subst h
      · exact hq2.1 hc
      · exact hq2.2.2.1 hc
      · exact hq2.2.1 hc
    simp only [writeField, if_neg hq]
    rw [csvAux_unquoted f hf [] r rest]
    simp

theorem csvAux_record :
    ∀ (fs : List (List Char)), fs ≠ [] →
      ∀ (r : List (List Char)) (rest : List Char),
        csvAux false (joinFields fs ++ '\n' :: rest) [] r
          = (r.reverse ++ fs) ::
              (match rest with
               | [] => []
               | _ :: _ => csvAux false rest [] []) := by
  intro fs
  induction fs with
  | nil => intro h; exact absurd rfl h
  | cons f fs ih =>
      intro _ r rest
      cases fs with
      | nil =>
          simp only [joinFields]
          rw [csvAux_writeField f r ('\n' :: rest) (Or.inr rfl)]
          simp [csvAux]
      | cons g t =>
          simp only [joinFields, List.append_assoc, List.cons_append]
          rw [csvAux_writeField f r (',' :: (joinFields (g :: t) ++ '\n' :: rest)) (Or.inl rfl)]
          rw [show csvAux false (',' :: (joinFields (g :: t) ++ '\n' :: rest)) f.reverse r
              = csvAux false (joinFields (g :: t) ++ '\n' :: rest) [] (f.reverse.reverse :: r) by
            simp [csvAux]]
          rw [List.reverse_reverse]
          rw [ih (by simp) (f :: r) rest]
          simp

theorem csvParse_of_ne_nil (s : List Char) (h : s ≠ []) :
    csvParse s = csvAux false s [] [] := by
  cases s with
  | nil => exact absurd rfl h
  | cons c rest => rfl

theorem csvParse_flatten_writeRecord :
    ∀ (rss : List (List (List Char))), (∀ fs ∈ rss, fs ≠ []) →
      csvParse ((rss.map writeRecord).flatten) = rss := by
  intro rss
  induction rss with
  | nil => intro _; rfl
  | cons fs rss ih =>
      intro h
      obtain ⟨hfs, hrest⟩ := List.forall_mem_cons.mp h
      simp only [List.map_cons, List.flatten_cons]
      rw [show writeRecord fs ++ (rss.map writeRecord).flatten
          = joinFields fs ++ '\n' :: (rss.map writeRecord).flatten by
        simp [writeRecord]]
      rw [csvParse_of_ne_nil _ (by simp)]
      rw [csvAux_record fs hfs [] ((rss.map writeRecord).flatten)]
      rw [show (match (rss.map writeRecord).flatten with
           | [] => []
           | _ :: _ => csvAux false ((rss.map writeRecord).flatten) [] [])
          = csvParse ((rss.map writeRecord).flatten) by
        cases hc : (rss.map writeRecord).flatten with
        | nil => rfl
        | cons x xs => rw [csvParse_of_ne_nil _ (by simp [hc])]]
      rw [ih hrest]
      simp

theorem rowOfFields_fieldsOfRow (r : ComplianceRow) :
    rowOfFields (fieldsOfRow r) = r := by
  cases r; rfl

theorem fieldsOfRow_ne_nil (r : ComplianceRow) : fieldsOfRow r ≠ [] := by
  cases r; simp [fieldsOfRow]

theorem fieldsOfRow_length (r : ComplianceRow) : (fieldsOfRow r).length = 5 := by
  cases r; rfl

/-!
Batch-extraction lemmas.
-/

theorem extractPagesLoop_text :
    ∀ (pages : List (Except (List Char) (List Char))),
      (extractPagesLoop pages).1
        = ((pagesBeforeFailure pages).map (fun t => t ++ ['\n'])).flatten := by
  intro pages
  induction pages with
  | nil => rfl
  | cons p rest ih =>
      cases p with
      | error e => rfl
      | ok t =>
          simp only [extractPagesLoop, pagesBeforeFailure, List.map_cons,
            List.flatten_cons, ih]
          simp

theorem extractPagesLoop_err :
    ∀ (pages : List (Except (List Char) (List Char))),
      (extractPagesLoop pages).2 = firstPageError? pages := by
  intro pages
  induction pages with
  | nil => rfl
  | cons p rest ih =>
      cases p with
      | error e => rfl
      | ok t => simpa only [extractPagesLoop, firstPageError?] using ih

theorem extract_text_foldl (files : List UploadedFile) :
    ∀ (acc : List Char × List (List Char)),
      files.foldl
        (fun acc f =>
          match f.readerResult with
          | .error e => (acc.1, acc.2 ++ [readErrorMsg f.name e])
          | .ok pages =>
              let r := extractPagesLoop pages
              match r.2 with
              | none => (acc.1 ++ r.1, acc.2)
              | some e => (acc.1 ++ r.1, acc.2 ++ [readErrorMsg f.name e]))
        acc
      = (acc.1 ++ (files.map fileContribution).flatten,
         acc.2 ++ files.filterMap fileWarning?) := by
  induction files with
  | nil => intro acc; simp
  | cons f files ih =>
      intro acc
      rw [List.foldl_cons, ih]
      cases hr : f.readerResult with
      | error e =>
          have hw : fileWarning? f = some (readErrorMsg f.name e) := by
            simp [fileWarning?, hr]
          have hc : fileContribution f = [] := by
            simp [fileContribution, hr]
          simp [hr, hw, hc, List.filterMap_cons, List.append_assoc]
      | ok pages =>
          cases he : firstPageError? pages with
          | none =>
              have h2 : (extractPagesLoop pages).2 = none := by
                rw [extractPagesLoop_err, he]
              have hw : fileWarning? f = none := by
                simp [fileWarning?, hr, he]
              have hc : fileContribution f = (extractPagesLoop pages).1 := by
                simp [fileContribution, hr, extractPagesLoop_text]
              simp [hr, h2, hw, hc, List.filterMap_cons, List.append_assoc]
          | some e =>
              have h2 : (extractPagesLoop pages).2 = some e := by
                rw [extractPagesLoop_err, he]
              have hw : fileWarning? f = some (readErrorMsg f.name e) := by
                simp [fileWarning?, hr, he]
              have hc : fileContribution f = (extractPagesLoop pages).1 := by
                simp [fileContribution, hr, extractPagesLoop_text]
              simp [hr, h2, hw, hc, List.filterMap_cons, List.append_assoc]

/-!
Claim theorems.
-/

/-- Claim C1: the knowledge context embedded in the checklist prompt never
exceeds the 60000-character budget, and when the base text alone reaches the
budget it equals the first 60000 characters of the base text, the
supplemental text being discarded entirely (base-first truncation). -/
theorem spec_C1_knowledge_budget (B S : List Char) :
    (knowledgeContext B S).length ≤ 60000 ∧
    (60000 ≤ B.length → knowledgeContext B S = B.take 60000) := by
  constructor
  · simp only [knowledgeContext, KNOWLEDGE_BUDGET, List.length_take]
    omega
  · intro h
    unfold knowledgeContext full_knowledge_base KNOWLEDGE_BUDGET
    rw [List.append_assoc]
    exact List.take_append_of_le_length h

/-- Witness for C1 at a base text of exactly 60000 characters and a
non-empty supplemental text. -/
theorem spec_C1_knowledge_budget_witness :
    (knowledgeContext (List.replicate 60000 'a') ['x']).length ≤ 60000 ∧
    knowledgeContext (List.replicate 60000 'a') ['x']
      = (List.replicate 60000 'a').take 60000 :=
  ⟨(spec_C1_knowledge_budget (List.replicate 60000 'a') ['x']).1,
   (spec_C1_knowledge_budget (List.replicate 60000 'a') ['x']).2
     (by rw [List.length_replicate])⟩

/-- Claim C2 fails on the code: on a reply containing the header token
twice, `result.split("Month/Trigger")` cuts at every occurrence and the
handler re-prepends the token only to `parts[1]`, so the candidate table
segment stops at the second occurrence instead of retaining all text after
the first occurrence (which here would be the segment of length 28 starting
at index 1). -/
theorem spec_C2_counterexample :
    recoverTable? "AMonth/TriggerBMonth/TriggerC".toList
        = some "Month/TriggerB".toList ∧
    recoverTable? "AMonth/TriggerBMonth/TriggerC".toList
        ≠ some (List.drop 1 "AMonth/TriggerBMonth/TriggerC".toList) := by
  refine ⟨by decide, by decide⟩

/-- Claim C2 as amended: for a reply whose first header-token occurrence is
at index `i`, the summary segment is everything before index `i`; the
candidate table segment is the token followed by the text strictly between
the first and the second occurrence when a second occurrence exists, and
the token followed by all remaining text when it does not. -/
theorem spec_C2_amended (s : List Char) (i : Nat)
    (h : firstOccIdx? headerToken s = some i) :
    (recoverParts s).headD [] = s.take i ∧
    (match firstOccIdx? headerToken (s.drop (i + headerToken.length)) with
     | none => recoverTable? s = some (s.drop i)
     | some j => recoverTable? s
         = some (headerToken ++ (s.drop (i + headerToken.length)).take j)) := by
  have hsep : headerToken ≠ [] := by decide
  have hstep := pySplit_some headerToken hsep s i h
  constructor
  · simp [recoverParts, hstep]
  · cases h2 : firstOccIdx? headerToken (s.drop (i + headerToken.length)) with
    | none =>
        have hrest := pySplit_none headerToken _ h2
        have hparts : recoverParts s
            = [s.take i, s.drop (i + headerToken.length)] := by
          rw [recoverParts, hstep, hrest]
        rw [show recoverTable? s
            = some (headerToken ++ s.drop (i + headerToken.length)) by
          simp [recoverTable?, hparts]]
        have hpre := firstOccIdx_isPrefixOf headerToken s i h
        have happ := isPrefixOf_eq_append headerToken (s.drop i) hpre
        rw [List.drop_drop] at happ
        rw [← happ]
    | some j =>
        have hrest := pySplit_some headerToken hsep _ j h2
        have hparts : recoverParts s
            = s.take i :: (s.drop (i + headerToken.length)).take j
              :: pySplit headerToken
                  ((s.drop (i + headerToken.length)).drop (j + headerToken.length)) := by
          rw [recoverParts, hstep, hrest]
        simp [recoverTable?, hparts]

/-- Witness for the amended C2 at a reply with a single token occurrence at
index 1. -/
theorem spec_C2_amended_witness :
    (recoverParts "XMonth/TriggerY".toList).headD []
        = "XMonth/TriggerY".toList.take 1 ∧
    (match firstOccIdx? headerToken
        ("XMonth/TriggerY".toList.drop (1 + headerToken.length)) with
     | none => recoverTable? "XMonth/TriggerY".toList
         = some ("XMonth/TriggerY".toList.drop 1)
     | some j => recoverTable? "XMonth/TriggerY".toList
         = some (headerToken
             ++ ("XMonth/TriggerY".toList.drop (1 + headerToken.length)).take j)) :=
  spec_C2_amended "XMonth/TriggerY".toList 1 (by decide)

/-- Claim C4: on the concrete reply
`"Intro text.\nMonth/Trigger,Form,Sec,Freq,Risk\n\"Sep 30\",\"File AOC-4\",\"Sec 137\",\"Yearly\",\"High\"\n"`
the recovery step yields summary `"Intro text.\n"`, the cleaned table text
is exactly the header line and the one data line, and materializing that
table text yields exactly one row with the five quoted field values. -/
theorem spec_C4_concrete_reply :
    recoverSummary "Intro text.\nMonth/Trigger,Form,Sec,Freq,Risk\n\"Sep 30\",\"File AOC-4\",\"Sec 137\",\"Yearly\",\"High\"\n".toList
        = "Intro text.\n".toList ∧
    (recoverTable? "Intro text.\nMonth/Trigger,Form,Sec,Freq,Risk\n\"Sep 30\",\"File AOC-4\",\"Sec 137\",\"Yearly\",\"High\"\n".toList).map clean_csv_output
        = some "Month/Trigger,Form,Sec,Freq,Risk\n\"Sep 30\",\"File AOC-4\",\"Sec 137\",\"Yearly\",\"High\"".toList ∧
    materialize "Month/Trigger,Form,Sec,Freq,Risk\n\"Sep 30\",\"File AOC-4\",\"Sec 137\",\"Yearly\",\"High\"".toList
        = some ⟨⟨"Month/Trigger".toList, "Form".toList, "Sec".toList, "Freq".toList, "Risk".toList⟩,
               [⟨"Sep 30".toList, "File AOC-4".toList, "Sec 137".toList, "Yearly".toList, "High".toList⟩]⟩ := by
  refine ⟨by decide, by decide, by decide⟩

/-- A genai environment whose configure call raises. -/
def genaiConfigureRaises : GenAI where
  configureResult := fun _ => .error "invalid api key".toList
  modelCtor := fun n => .ok ⟨n⟩
  generateContent := fun _ _ => .ok "reply".toList

/-- A genai environment in which every call succeeds except the generation
call, which raises. -/
def genaiGenerateRaises : GenAI where
  configureResult := fun _ => .ok ()
  modelCtor := fun n => .ok ⟨n⟩
  generateContent := fun _ _ => .error "quota exceeded".toList

/-- A genai environment in which every call succeeds. -/
def genaiOk : GenAI where
  configureResult := fun _ => .ok ()
  modelCtor := fun n => .ok ⟨n⟩
  generateContent := fun _ _ => .ok "reply".toList

/-- Claim C3 fails on the code: `genai.configure` (line 69) and the
`GenerativeModel` construction (line 71) sit outside the `try` block of
`generate_compliance_checklist`, so an exception raised during
configuration propagates to the caller instead of being swallowed; there is
also no candidate fallback list, only the single hardcoded identifier. -/
theorem spec_C3_counterexample :
    generate_compliance_checklist genaiConfigureRaises
        "Private Limited".toList [] [] "bad-key".toList
      = Except.error "invalid api key".toList := rfl

/-- Claim C3 as amended: model resolution requests only the single
hardcoded identifier with no fallback; an exception raised by configuration
or by handle construction propagates unchanged out of
`generate_compliance_checklist`, and when both succeed the function always
returns an ordinary reply string (generation failures being caught). -/
theorem spec_C3_amended (g : GenAI)
    (company_type base_text extra_text api_key : List Char) :
    (∀ e, g.configureResult api_key = Except.error e →
      generate_compliance_checklist g company_type base_text extra_text api_key
        = Except.error e) ∧
    (∀ e, g.configureResult api_key = Except.ok () →
      g.modelCtor geminiModelName = Except.error e →
      generate_compliance_checklist g company_type base_text extra_text api_key
        = Except.error e) ∧
    (∀ m, g.configureResult api_key = Except.ok () →
      g.modelCtor geminiModelName = Except.ok m →
      ∃ reply,
        generate_compliance_checklist g company_type base_text extra_text api_key
          = Except.ok reply) := by
  refine ⟨?_, ?_, ?_⟩
  · intro e hc
    simp only [generate_compliance_checklist, hc]
  · intro e hc hm
    simp only [generate_compliance_checklist, hc, hm]
  · intro m hc hm
    simp only [generate_compliance_checklist, hc, hm]
    cases hg : g.generateContent m
        (checklistPrompt company_type base_text extra_text) with
    | ok r => exact ⟨r, rfl⟩
    | error e => exact ⟨geminiErrorPrefix ++ e, rfl⟩

/-- Witness for the amended C3: a raising configure call propagates, and a
fully succeeding environment yields an ordinary reply. -/
theorem spec_C3_amended_witness :
    generate_compliance_checklist genaiConfigureRaises
        "Listed (BSE/NSE)".toList [] [] "key".toList
      = Except.error "invalid api key".toList ∧
    (∃ reply, generate_compliance_checklist genaiOk
        "Listed (BSE/NSE)".toList [] [] "key".toList = Except.ok reply) :=
  ⟨(spec_C3_amended genaiConfigureRaises
      "Listed (BSE/NSE)".toList [] [] "key".toList).1
      "invalid api key".toList rfl,
   (spec_C3_amended genaiOk
      "Listed (BSE/NSE)".toList [] [] "key".toList).2.2
      ⟨geminiModelName⟩ rfl rfl⟩

/-- An upload whose second page raises during extraction. -/
def corruptUpload : UploadedFile :=
  ⟨"circular1.pdf".toList, .ok [.ok "A".toList, .error "bad xref".toList]⟩

/-- An upload that extracts cleanly. -/
def validUpload : UploadedFile :=
  ⟨"circular2.pdf".toList, .ok [.ok "B".toList]⟩

/-- Claim C5 fails on the code: `combined_text` is one accumulator shared
across the per-file `try`, so a file that fails after some pages were
already appended leaves its partial text in the result — the failing file's
content is not skipped. The batch does get a warning for the failing file
and is not aborted. -/
theorem spec_C5_counterexample :
    (extract_text_from_uploaded_pdfs [corruptUpload, validUpload]).1
        ≠ "B\n".toList ∧
    (extract_text_from_uploaded_pdfs [corruptUpload, validUpload]).1
        = "A\nB\n".toList ∧
    (extract_text_from_uploaded_pdfs [corruptUpload, validUpload]).2
        = [readErrorMsg "circular1.pdf".toList "bad xref".toList] := by
  refine ⟨by decide, by decide, by decide⟩

/-- Claim C5 as amended: the batch extraction returns, in order, the
concatenation over all files of the newline-terminated texts of the pages
extracted before that file's first failure (a file whose reader fails
outright contributes nothing), together with one warning per failing file;
it never aborts the whole batch. -/
theorem spec_C5_amended (files : List UploadedFile) :
    extract_text_from_uploaded_pdfs files
      = ((files.map fileContribution).flatten, files.filterMap fileWarning?) := by
  unfold extract_text_from_uploaded_pdfs
  rw [extract_text_foldl files ([], [])]
  simp

/-- Claim C6: materializing the CSV serialization of any table yields the
table back, with column order and cell values preserved. -/
theorem spec_C6_round_trip (t : ComplianceTable) :
    materialize (serialize t) = some t := by
  have hparse : csvParse (serialize t)
      = fieldsOfRow t.header :: t.rows.map fieldsOfRow := by
    unfold serialize
    apply csvParse_flatten_writeRecord
    intro fs hfs
    rcases List.mem_cons.mp hfs with h | h
    · subst h; exact fieldsOfRow_ne_nil t.header
    · obtain ⟨r, _, rfl⟩ := List.mem_map.mp h
      exact fieldsOfRow_ne_nil r
  have hcond : (fieldsOfRow t.header).length = 5 ∧
      ∀ row ∈ t.rows.map fieldsOfRow, row.length = 5 := by
    refine ⟨fieldsOfRow_length t.header, ?_⟩
    intro row hrow
    obtain ⟨r, _, rfl⟩ := List.mem_map.mp hrow
    exact fieldsOfRow_length r
  unfold materialize
  rw [hparse]
  dsimp only
  rw [if_pos hcond]
  cases t with
  | mk header rows =>
      dsimp only
      rw [rowOfFields_fieldsOfRow header, List.map_map]
      rw [show rowOfFields ∘ fieldsOfRow = id from
        funext fun r => rowOfFields_fieldsOfRow r]
      rw [List.map_id]

/-- Claim C7: when the header token does not occur in the reply, there is no
table segment and the whole reply, with code fences stripped, is the
summary. -/
theorem spec_C7_no_header_token (s : List Char)
    (h : firstOccIdx? headerToken s = none) :
    recoverTable? s = none ∧ recoverSummary s = stripFences s := by
  have hp : recoverParts s = [s] := pySplit_none headerToken s h
  exact ⟨by simp [recoverTable?, hp], by simp [recoverSummary, hp]⟩

/-- Witness for C7 at a reply without the header token. -/
theorem spec_C7_no_header_token_witness :
    recoverTable? "hello world".toList = none ∧
    recoverSummary "hello world".toList = stripFences "hello world".toList :=
  spec_C7_no_header_token "hello world".toList (by decide)

/-- Claim C8 fails on the code: `clean_csv_output` also strips leading and
trailing whitespace (the `.strip()` between the fence removal and the line
split), which the claim omits; on `"a,b "` the code returns `"a,b"` while
the claimed fence-strip/split/filter/join pipeline returns `"a,b "`. -/
theorem spec_C8_counterexample :
    clean_csv_output "a,b ".toList ≠ cleanClaimC8 "a,b ".toList ∧
    clean_csv_output "a,b ".toList = "a,b".toList ∧
    cleanClaimC8 "a,b ".toList = "a,b ".toList := by
  refine ⟨by decide, by decide, by decide⟩

/-- Claim C8 as amended: `clean_csv_output` removes the two code-fence
tokens, strips leading and trailing whitespace, splits the result into
lines, and returns, joined by newlines and in original order, exactly the
lines containing at least one comma. -/
theorem spec_C8_amended (text : List Char) :
    clean_csv_output text = cleanClaimC8Amended text := by
  simp only [clean_csv_output, cleanClaimC8Amended, pySplit_nl_eq_linesSpec]

/-- Claim C9: when configuration and model construction succeed but the
generation call raises, `generate_compliance_checklist` does not raise; it
returns the string `"Error calling Gemini: {e}"` as an ordinary reply, of
the same type as a successful reply. -/
theorem spec_C9_generation_failure_reply (g : GenAI)
    (company_type base_text extra_text api_key e : List Char)
    (m : GenerativeModel)
    (hc : g.configureResult api_key = Except.ok ())
    (hm : g.modelCtor geminiModelName = Except.ok m)
    (hg : g.generateContent m (checklistPrompt company_type base_text extra_text)
        = Except.error e) :
    generate_compliance_checklist g company_type base_text extra_text api_key
      = Except.ok (geminiErrorPrefix ++ e) := by
  simp only [generate_compliance_checklist, hc, hm, hg]

/-- Witness for C9 in an environment whose generation call raises. -/
theorem spec_C9_generation_failure_reply_witness :
    generate_compliance_checklist genaiGenerateRaises
        "Private Limited".toList [] [] "key".toList
      = Except.ok (geminiErrorPrefix ++ "quota exceeded".toList) :=
  spec_C9_generation_failure_reply genaiGenerateRaises
    "Private Limited".toList [] [] "key".toList "quota exceeded".toList
    ⟨geminiModelName⟩ rfl rfl rfl

/-- Claim C10: the question-answering path truncates the base text and the
supplemental text separately (50000 and 10000 characters), so with a base
text longer than 50000 characters a non-empty supplemental text still
changes the query prompt — unlike the checklist path, whose base-first
truncation discards the supplemental text once the base alone fills the
60000-character budget. -/
theorem spec_C10_query_truncates_separately
    (company_type B S user_query : List Char)
    (hB : 50000 < B.length) (hS : S ≠ []) :
    q_prompt company_type B S user_query
        ≠ q_prompt company_type B [] user_query ∧
    (60000 ≤ B.length → knowledgeContext B S = knowledgeContext B []) := by
  constructor
  · intro heq
    have hlen := congrArg List.length heq
    simp only [q_prompt, List.length_append, List.length_take, List.take_nil,
      List.length_nil] at hlen
    have hS0 : S.length ≠ 0 := fun h0 => hS (List.length_eq_zero.mp h0)
    omega
  · intro h
    unfold knowledgeContext full_knowledge_base KNOWLEDGE_BUDGET
    rw [List.append_assoc, List.append_assoc]
    rw [List.take_append_of_le_length h, List.take_append_of_le_length h]

/-- Witness for C10 at a 60000-character base text and a one-character
supplemental text. -/
theorem spec_C10_query_truncates_separately_witness :
    q_prompt [] (List.replicate 60000 'a') ['s'] []
        ≠ q_prompt [] (List.replicate 60000 'a') [] [] ∧
    knowledgeContext (List.replicate 60000 'a') ['s']
        = knowledgeContext (List.replicate 60000 'a') [] :=
  ⟨(spec_C10_query_truncates_separately [] (List.replicate 60000 'a') ['s'] []
      (by rw [List.length_replicate]; omega) (by simp)).1,
   (spec_C10_query_truncates_separately [] (List.replicate 60000 'a') ['s'] []
      (by rw [List.length_replicate]; omega) (by simp)).2
      (by rw [List.length_replicate])⟩
